import Mathlib

/-!
Verification of the `uplink-sys` build script (`uplink-sys/build.rs`) of the
`uplink-rust` repository.

The build script is an effectful program: it reads environment variables,
invokes external tools (`go`, `make`, `gendef`, `dlltool`, `dumpbin`, `lib`),
manipulates the filesystem, emits cargo directives and finally runs bindgen.
We embed it shallowly as a pure function over a `World` oracle that fixes the
outcome of every environment read, external-tool invocation and filesystem
query the script performs.  The function returns either a panic message
(`Except.error`, corresponding to a Rust `panic!`/`expect` abort) or the
ordered trace of externally visible events of the run (`Except.ok`).

Pure fragments of the script — the dumpbin-output parser that produces the
`.def` file, the bindgen allow-list configuration, and `copy_dir_recursive` —
are embedded directly as Lean functions over explicit data.
-/

namespace UplinkBuild

/-- Outcome of one `std::process::Command` invocation:
`spawnErr` models `status()`/`output()` returning `Err` (the process could not
be started); `ran ok out` models a process that ran, with exit-status success
flag `ok` and captured stdout `out` (empty when the script does not read it). -/
inductive CmdResult where
  | spawnErr
  | ran (ok : Bool) (out : String)
  deriving DecidableEq, Repr

/-- The oracle fixing every observation `main` makes of its environment:
environment variables, results of external-tool invocations, and the
filesystem existence checks the script performs, in program order. -/
structure World where
  /-- `env::var("OUT_DIR")` -/
  outDir : Option String
  /-- `env::var("CARGO_CFG_TARGET_OS")` -/
  targetOS : Option String
  /-- `env::var("DOCS_RS")` -/
  docsRs : Option String
  /-- `env::var("PROFILE")` -/
  profile : Option String
  /-- `env::var("CARGO_MANIFEST_DIR")` -/
  manifestDir : Option String
  /-- `go build` (Windows branch) -/
  go : CmdResult
  /-- `gendef - <dll>` -/
  gendef : CmdResult
  /-- `dlltool -d ... -l ...` -/
  dlltool : CmdResult
  /-- `dumpbin /EXPORTS <dll>` -/
  dumpbin : CmdResult
  /-- `lib /MACHINE:X64 ...` -/
  libExe : CmdResult
  /-- `make build` (non-Windows branch) -/
  make : CmdResult
  /-- `lib_path.exists()` after the gendef/dlltool attempt (line 87) -/
  libExistsAfterDlltool : Bool
  /-- `lib_path.exists()` after the dumpbin/lib.exe fallback (line 130) -/
  libExistsAfterLib : Bool
  /-- `uplink-c/uplink_definitions.h` exists -/
  defHeaderExists : Bool
  /-- `uplink-c/uplink_compat.h` exists -/
  compatHeaderExists : Bool
  /-- the go/make generated header (`libuplink.h` resp. `uplink.h`) exists -/
  genHeaderExists : Bool
  /-- `OUT_DIR/uplink-c` already exists before the copy (line 169) -/
  uplinkCDirExists : Bool
  /-- `.docs-rs` directory exists (line 178) -/
  docsRsDirExists : Bool
  /-- `uplink-c/.build` exists at the deletion check (line 185) -/
  srcBuildExists : Bool
  /-- `OUT_DIR/uplink-c/.build/libuplink.dll` exists (line 215) -/
  dllSrcExists : Bool
  /-- `bindgen::Builder::generate()` succeeds -/
  bindgenOk : Bool
  /-- `Bindings::write_to_file(OUT_DIR/bindings.rs)` succeeds -/
  writeOk : Bool
  deriving DecidableEq, Repr

/-- Externally visible events of a run of `main`, in program order. -/
inductive Event where
  /-- binding of the `uplink-c` source directory path (line 27) -/
  | locateUplinkCSrc
  /-- `go build -buildmode=c-shared` invocation (line 39) -/
  | invokeGo
  /-- `gendef` invocation (line 62) -/
  | invokeGendef
  /-- `dlltool` invocation (line 69) -/
  | invokeDlltool
  /-- `dumpbin /EXPORTS` invocation (line 89) -/
  | invokeDumpbin
  /-- `lib.exe` invocation (line 117) -/
  | invokeLib
  /-- `make build` invocation (line 135) -/
  | invokeMake
  /-- write of `.build/libuplink.def` with the given contents (lines 66, 114) -/
  | writeDef (content : String)
  /-- copy of a static header into `.build/uplink` (lines 144-150) -/
  | copyHeader (name : String)
  /-- copy of the generated header to `.build/uplink/uplink.h` (lines 152-162) -/
  | copyGeneratedHeader
  /-- `fs::remove_dir_all(OUT_DIR/uplink-c)` (line 170) -/
  | removeOutDirCopy
  /-- `copy_dir_recursive(uplink-c, OUT_DIR/uplink-c)` (line 172) -/
  | copyProjectToOutDir
  /-- `copy_dir_recursive(.docs-rs, OUT_DIR/uplink-c/.build)` (line 179) -/
  | copyDocsRsLibs
  /-- `fs::remove_dir_all(uplink-c/.build)` (line 186) -/
  | removeSrcBuild
  /-- `cargo:rustc-link-lib` directive; `static=uplink` when `static`, plain
  `uplink` otherwise (lines 199-204) -/
  | emitLinkLib (isStatic : Bool)
  /-- `cargo:rustc-link-search` directive (line 207) -/
  | emitLinkSearch
  /-- copy of `libuplink.dll` to `OUT_DIR` (line 218) -/
  | copyDllToOutDir
  /-- copy of `libuplink.dll` to `target/<profile>` (line 229) -/
  | copyDllToTarget
  /-- `cargo:rerun-if-changed` directive (line 236) -/
  | emitRerunIfChanged
  /-- `cargo:rustc-flags=-l framework=CoreFoundation -l framework=Security`
  directive (line 246) -/
  | emitMacFrameworks
  /-- `bindgen::Builder::generate()` succeeded (line 277) -/
  | generateBindings
  /-- `write_to_file(OUT_DIR/bindings.rs)` succeeded (line 280) -/
  | writeBindingsFile
  deriving DecidableEq, Repr

/-- Line 24: `env::var("CARGO_CFG_TARGET_OS").as_deref() == Ok("windows")`. -/
def isWindows (w : World) : Bool := w.targetOS = some "windows"

/-! String primitives, re-implemented by structural recursion on the
character list so that closed instances reduce in the kernel. -/

/-- `s` starts with `pre` (Rust `str::starts_with`). -/
def strStartsWith (s pre : String) : Bool := pre.data.isPrefixOf s.data

/-- `s` ends with `suf` (Rust `str::ends_with`). -/
def strEndsWith (s suf : String) : Bool := suf.data.isSuffixOf s.data

/-- Drop the last `n` characters of `s`. -/
def strDropRight (s : String) (n : Nat) : String :=
  String.mk (s.data.take (s.data.length - n))

/-- Split a character list at every separator character, keeping empty
pieces (the behaviour of Rust `str::split` and Lean `String.split`). -/
def splitChars (p : Char → Bool) : List Char → List (List Char)
  | [] => [[]]
  | c :: cs =>
    if p c then [] :: splitChars p cs
    else
      match splitChars p cs with
      | [] => [[c]]
      | g :: gs => (c :: g) :: gs

/-- Split a string at every character satisfying `p`, keeping empty pieces. -/
def strSplit (s : String) (p : Char → Bool) : List String :=
  (splitChars p s.data).map String.mk

/-- Rust `str::split_whitespace`: split on whitespace, dropping empty pieces
(ASCII whitespace, which is all `dumpbin` output contains). -/
def splitWhitespace (s : String) : List String :=
  (strSplit s Char.isWhitespace).filter (fun p => p ≠ "")

/-- Rust `str::lines`: split on a newline character, removing one trailing
carriage return per line, and with no final empty line when the string ends
in a newline. -/
def rustLines (s : String) : List String :=
  let parts := strSplit s (fun c => c = '\n')
  let parts := if parts.getLast? = some "" then parts.dropLast else parts
  parts.map (fun l => if strEndsWith l "\r" then strDropRight l 1 else l)

/-- Rust `str::parse::<u32>()`: an optional leading plus sign, then one or
more ASCII digits, with the value required to fit in 32 bits; returns the
parsed value on success. -/
def rustParseU32 (s : String) : Option Nat :=
  let cs := match s.data with
    | '+' :: rest => rest
    | cs => cs
  match cs with
  | [] => none
  | _ =>
    match cs.foldlM (fun acc c =>
        if c.isDigit then some (acc * 10 + (c.toNat - 48)) else none) 0 with
    | none => none
    | some v => if v < 2 ^ 32 then some v else none

/-- Lines 100-111: the export name (if any) one line of `dumpbin /EXPORTS`
output contributes to the `.def` file: the line is split on whitespace, at
least four parts are required, the first part must parse as a `u32` ordinal,
and the fourth part is kept when it starts with `uplink_` or `edge_`. -/
def exportOfLine (line : String) : Option String :=
  match splitWhitespace line with
  | p0 :: _ :: _ :: p3 :: _ =>
    match rustParseU32 p0 with
    | some _ =>
      if strStartsWith p3 "uplink_" || strStartsWith p3 "edge_" then some p3
      else none
    | none => none
  | _ => none

/-- Lines 96-112: the full `.def` file contents built from the stdout of
`dumpbin /EXPORTS`: the fixed header followed by one indented line per
contributing export, in line order. -/
def defFileContent (stdout : String) : String :=
  (rustLines stdout).foldl
    (fun acc line =>
      match exportOfLine line with
      | some name => acc ++ "    " ++ name ++ "\n"
      | none => acc)
    "LIBRARY libuplink\nEXPORTS\n"

/-- Lines 62-84: the gendef/dlltool attempt at building the import library.
A successful `gendef` writes its stdout to the `.def` file and `dlltool` is
then invoked (its failure only suppresses a log line); any failure of
`gendef` falls through silently. -/
def gendefDlltoolPhase (w : World) : List Event :=
  match w.gendef with
  | .spawnErr => [.invokeGendef]
  | .ran ok out =>
    if ok then [.invokeGendef, .writeDef out, .invokeDlltool]
    else [.invokeGendef]

/-- Lines 86-128: when no import library exists yet, fall back to
`dumpbin /EXPORTS` plus `lib.exe`; a successful `dumpbin` has its output
parsed into a `.def` file and `lib.exe` invoked; all failures are ignored. -/
def dumpbinLibPhase (w : World) : List Event :=
  if w.libExistsAfterDlltool then []
  else
    match w.dumpbin with
    | .spawnErr => [.invokeDumpbin]
    | .ran ok out =>
      if ok then [.invokeDumpbin, .writeDef (defFileContent out), .invokeLib]
      else [.invokeDumpbin]

/-- Lines 37-132: the Windows build branch: `go build` (spawn failure or
unsuccessful exit panics), then the two import-library attempts, then a
panic if no import library was produced. -/
def windowsBuildPhase (w : World) : Except String (List Event) :=
  match w.go with
  | .spawnErr => .error "Failed to run go build for Windows DLL"
  | .ran ok _ =>
    if ok then
      let evs := Event.invokeGo :: (gendefDlltoolPhase w ++ dumpbinLibPhase w)
      if w.libExistsAfterLib then .ok evs
      else .error "Failed to create import library for libuplink.dll. Make sure MinGW (gendef, dlltool) or MSVC tools are available."
    else .error "go build failed for Windows DLL"

/-- Lines 134-140: the non-Windows build branch: `make build`, panicking only
when the command cannot be spawned; the exit status is never inspected. -/
def unixBuildPhase (w : World) : Except String (List Event) :=
  match w.make with
  | .spawnErr => .error "Failed to run make command from build.rs."
  | .ran _ _ => .ok [Event.invokeMake]

/-- Lines 142-162: copies of the static headers and of the generated header
into `.build/uplink`, each guarded by an existence check, failures ignored. -/
def copyHeadersPhase (w : World) : List Event :=
  (if w.defHeaderExists then [Event.copyHeader "uplink_definitions.h"] else []) ++
  (if w.compatHeaderExists then [Event.copyHeader "uplink_compat.h"] else []) ++
  (if w.genHeaderExists then [Event.copyGeneratedHeader] else [])

/-- Lines 213-233: on Windows, copy the DLL next to the build outputs: into
`OUT_DIR`, and additionally into `target/<profile>` when both `PROFILE` and
`CARGO_MANIFEST_DIR` are set; all failures ignored. -/
def dllCopyPhase (w : World) : List Event :=
  if isWindows w then
    if w.dllSrcExists then
      Event.copyDllToOutDir ::
        (match w.profile, w.manifestDir with
         | some _, some _ => [Event.copyDllToTarget]
         | _, _ => [])
    else []
  else []

/-- Lines 37-140: the platform-dependent build of `uplink-c`. -/
def buildStep (w : World) : Except String (List Event) :=
  if isWindows w then windowsBuildPhase w else unixBuildPhase w

/-- The whole of `main` (lines 22-282) as a function of the `World` oracle:
`Except.error msg` is a Rust panic with diagnostic `msg`; `Except.ok tr` is a
normal return with `tr` the ordered trace of externally visible events. -/
def mainRun (w : World) : Except String (List Event) :=
  -- line 23: OUT_DIR must be defined
  if w.outDir.isNone then .error "OUT_DIR not defined"
  else
    -- lines 31-163: build uplink-c unless building for docs.rs
    match (if w.docsRs.isNone then
        (match buildStep w with
          | .error m => .error m
          | .ok evs => .ok (evs ++ copyHeadersPhase w) :
          Except String (List Event))
      else .ok ([] : List Event) : Except String (List Event)) with
    | .error m => .error m
    | .ok buildEvs =>
      -- lines 166-172: copy the project into OUT_DIR
      let copyEvs :=
        (if w.uplinkCDirExists then [Event.removeOutDirCopy] else []) ++
          [Event.copyProjectToOutDir]
      -- lines 174-188: docs.rs precompiled libraries, or source-tree cleanup
      let docsEvs :=
        if w.docsRs.isSome then
          if w.docsRsDirExists then [Event.copyDocsRsLibs] else []
        else
          if w.srcBuildExists then [Event.removeSrcBuild] else []
      -- lines 199-210: linkage directives
      let linkEvs := [Event.emitLinkLib (!isWindows w), Event.emitLinkSearch]
      -- lines 241-247: macOS frameworks; CARGO_CFG_TARGET_OS must be defined
      match w.targetOS with
      | none => .error "CARGO_CFG_TARGET_OS is not defined"
      | some os =>
        let macEvs := if os = "macos" then [Event.emitMacFrameworks] else []
        -- lines 249-281: bindgen generation and write
        if w.bindgenOk then
          if w.writeOk then
            .ok (Event.locateUplinkCSrc ::
              (buildEvs ++ copyEvs ++ docsEvs ++ linkEvs ++ dllCopyPhase w ++
                [Event.emitRerunIfChanged] ++ macEvs ++
                [Event.generateBindings, Event.writeBindingsFile]))
          else .error "Error writing bindings to file."
        else .error "Error generating bindings."

/-- The build phase of a run succeeds (no panic in lines 37-140). -/
def buildPhaseOk (w : World) : Bool :=
  if isWindows w then
    match w.go with
    | .spawnErr => false
    | .ran ok _ => ok && w.libExistsAfterLib
  else
    match w.make with
    | .spawnErr => false
    | .ran _ _ => true

/-- The events of a successful build phase. -/
def buildPhaseTrace (w : World) : List Event :=
  if isWindows w then
    Event.invokeGo :: (gendefDlltoolPhase w ++ dumpbinLibPhase w)
  else [Event.invokeMake]

/-- `mainRun w` returns normally (does not panic). -/
def mainOk (w : World) : Bool :=
  w.outDir.isSome && (w.docsRs.isSome || buildPhaseOk w) &&
    w.targetOS.isSome && (w.bindgenOk && w.writeOk)

/-- The build-and-copy-headers segment of a successful run (empty on a
docs.rs run). -/
def buildSeg (w : World) : List Event :=
  if w.docsRs.isNone then buildPhaseTrace w ++ copyHeadersPhase w else []

/-- The project-copy segment (lines 166-172). -/
def copySeg (w : World) : List Event :=
  (if w.uplinkCDirExists then [Event.removeOutDirCopy] else []) ++
    [Event.copyProjectToOutDir]

/-- The docs.rs / cleanup segment (lines 174-188). -/
def docsSeg (w : World) : List Event :=
  if w.docsRs.isSome then
    if w.docsRsDirExists then [Event.copyDocsRsLibs] else []
  else
    if w.srcBuildExists then [Event.removeSrcBuild] else []

/-- The macOS framework segment (lines 241-247). -/
def macSeg (w : World) : List Event :=
  if w.targetOS = some "macos" then [Event.emitMacFrameworks] else []

/-- The event trace of a successful run, as a direct concatenation. -/
def mainTrace (w : World) : List Event :=
  Event.locateUplinkCSrc ::
    (buildSeg w ++ copySeg w ++ docsSeg w ++
      [Event.emitLinkLib (!isWindows w), Event.emitLinkSearch] ++
      dllCopyPhase w ++ [Event.emitRerunIfChanged] ++ macSeg w ++
      [Event.generateBindings, Event.writeBindingsFile])

/-- The run aborted (a Rust panic; the `error` payload is the diagnostic
message). -/
def panics {α : Type} (r : Except String α) : Bool :=
  match r with
  | .error _ => true
  | .ok _ => false

/-! ### The bindgen allow-list configuration (lines 249-266) -/

/-- The kind of C declaration a bindgen allow-list pattern applies to. -/
inductive DeclKind where
  | type | fn | var
  deriving DecidableEq, Repr

/-- Matching of the allow-list patterns the builder is configured with.
Bindgen anchors each pattern (it must match the whole name); the patterns in
the script are all either a literal prefix followed by `.*`, or a plain
literal, so matching is prefix test respectively equality (C identifiers
contain no newline, so `.*` matches any tail). -/
def patternMatches (pat name : String) : Bool :=
  if strEndsWith pat ".*" then strStartsWith name (strDropRight pat 2)
  else name == pat

/-- Lines 254-258: the three `allowlist_type` patterns, in order. -/
def allowlistTypePatterns : List String := ["Uplink.*", "Edge.*", "uplink_const_char"]

/-- Lines 260-262: the two `allowlist_function` patterns, in order. -/
def allowlistFunctionPatterns : List String := ["uplink_.*", "edge_.*"]

/-- Lines 264-266: the two `allowlist_var` patterns, in order. -/
def allowlistVarPatterns : List String := ["UPLINK_ERROR_.*", "EDGE_ERROR_.*"]

/-- The selection rule configured on the bindgen builder: a declaration of
kind `k` named `name` is selected exactly when one of the patterns for its
kind matches. -/
def allowlisted (k : DeclKind) (name : String) : Bool :=
  match k with
  | .type => allowlistTypePatterns.any (fun p => patternMatches p name)
  | .fn => allowlistFunctionPatterns.any (fun p => patternMatches p name)
  | .var => allowlistVarPatterns.any (fun p => patternMatches p name)

/-- The spec's description of the selection rule, written from its words: a
type whose name starts with `Uplink` or `Edge` or is exactly
`uplink_const_char`, a function whose name starts with `uplink_` or `edge_`,
or a variable whose name starts with `UPLINK_ERROR_` or `EDGE_ERROR_`. -/
def specAllowed (k : DeclKind) (name : String) : Bool :=
  match k with
  | .type =>
      strStartsWith name "Uplink" || strStartsWith name "Edge" ||
        name == "uplink_const_char"
  | .fn => strStartsWith name "uplink_" || strStartsWith name "edge_"
  | .var => strStartsWith name "UPLINK_ERROR_" || strStartsWith name "EDGE_ERROR_"

/-! ### `copy_dir_recursive` (lines 8-20)

The filesystem is a finite tree of named entries; paths are lists of
component names.  The function's effects are a trace of filesystem write
operations; an `FsOracle` fixes which `create_dir_all`, `read_dir` and
`fs::copy` calls succeed. -/

/-- A filesystem subtree: a regular file with contents, or a directory whose
entries are listed in the order `read_dir` yields them. -/
inductive FsTree where
  | file (data : String)
  | dir (entries : List (String × FsTree))

/-- Which filesystem operations succeed, by absolute path. -/
structure FsOracle where
  /-- `fs::create_dir_all(p)` succeeds -/
  mkdirOk : List String → Bool
  /-- `fs::read_dir(p)` succeeds (including reading every entry) -/
  readDirOk : List String → Bool
  /-- `fs::copy(p, _)` succeeds -/
  copyOk : List String → Bool

/-- A filesystem write operation performed by `copy_dir_recursive`. -/
inductive FsOp where
  /-- `fs::create_dir_all(dst)` -/
  | createDirAll (dst : List String)
  /-- `fs::copy(src, dst)` -/
  | copyFile (src dst : List String)
  deriving DecidableEq, Repr

/-- The destination path an operation writes to. -/
def FsOp.target : FsOp → List String
  | .createDirAll d => d
  | .copyFile _ d => d

mutual

/-- Lines 8-20, `copy_dir_recursive(src, dst)` where the subtree at `src` is
`t`: create `dst` (panicking on failure), read the entries of `src`
(panicking on failure, also when `src` is not a directory), and process each
entry in order: recurse into subdirectories, copy regular files (panicking
when a copy fails).  Returns the trace of write operations performed. -/
def copyDirRecursive (o : FsOracle) (t : FsTree) (src dst : List String) :
    Except String (List FsOp) :=
  if o.mkdirOk dst then
    match t with
    | .file _ => .error "Failed to read source directory"
    | .dir es =>
      if o.readDirOk src then
        (copyEntries o es src dst).map (fun ops => FsOp.createDirAll dst :: ops)
      else .error "Failed to read source directory"
  else .error "Failed to create destination directory"

/-- The loop body of lines 10-19 over the remaining entries of `src`. -/
def copyEntries (o : FsOracle) (es : List (String × FsTree)) (src dst : List String) :
    Except String (List FsOp) :=
  match es with
  | [] => .ok []
  | (n, child) :: rest =>
    (match child with
      | .dir cs =>
          copyDirRecursive o (.dir cs) (src ++ [n]) (dst ++ [n])
      | .file _ =>
          if o.copyOk (src ++ [n]) then
            Except.ok [FsOp.copyFile (src ++ [n]) (dst ++ [n])]
          else Except.error "Failed to copy file" :
      Except String (List FsOp)).bind
      (fun ops1 => (copyEntries o rest src dst).bind
        (fun ops2 => Except.ok (ops1 ++ ops2)))

end

/-- There is a regular file at relative path `p` in the tree `t` (under some
entry of that name when names repeat). -/
def FsTree.fileAt : FsTree → List String → Bool
  | .file _, [] => true
  | .dir _, [] => false
  | .file _, _ :: _ => false
  | .dir es, n :: p => es.any (fun e => e.1 = n && e.2.fileAt p)

/-! ### Spec-side restatement of the `.def`-file export rule (for C8) -/

/-- Concatenation of a list of strings, in order. -/
def strConcat : List String → String
  | [] => ""
  | s :: rest => s ++ strConcat rest

/-- The one line of the `.def` file a contributing export produces. -/
def defLineOf (name : String) : String := "    " ++ name ++ "\n"

/-- The claim's description of the export a `dumpbin /EXPORTS` output line
contributes, written from its words: the line splits into at least four
whitespace-separated tokens, the first token parses as an unsigned 32-bit
integer, the fourth token starts with `uplink_` or `edge_`, and that fourth
token is what is written. -/
def specExportOfLine (line : String) : Option String :=
  if 4 ≤ (splitWhitespace line).length ∧
      (rustParseU32 ((splitWhitespace line).getD 0 "")).isSome ∧
      (strStartsWith ((splitWhitespace line).getD 3 "") "uplink_" = true ∨
        strStartsWith ((splitWhitespace line).getD 3 "") "edge_" = true)
  then some ((splitWhitespace line).getD 3 "")
  else none

/-! ### Trace-ordering helper -/

/-- `occursBefore tr a b`: some occurrence of `a` in `tr` is strictly
followed by an occurrence of `b`. -/
def occursBefore (tr : List Event) (a b : Event) : Bool :=
  match tr with
  | [] => false
  | x :: rest => (decide (x = a) && decide (b ∈ rest)) || occursBefore rest a b

/-! ### Concrete worlds used to evaluate the model -/

/-- A Linux world in which every observation succeeds. -/
def baseWorld : World where
  outDir := some "/out"
  targetOS := some "linux"
  docsRs := none
  profile := none
  manifestDir := none
  go := .ran true ""
  gendef := .ran true ""
  dlltool := .ran true ""
  dumpbin := .ran true ""
  libExe := .ran true ""
  make := .ran true ""
  libExistsAfterDlltool := true
  libExistsAfterLib := true
  defHeaderExists := true
  compatHeaderExists := true
  genHeaderExists := true
  uplinkCDirExists := false
  docsRsDirExists := false
  srcBuildExists := true
  dllSrcExists := false
  bindgenOk := true
  writeOk := true

/-- A Linux world in which `make` runs but exits unsuccessfully. -/
def makeFailWorld : World := { baseWorld with make := .ran false "" }

/-- A sample stdout of `dumpbin /EXPORTS`. -/
def sampleDumpbin : String :=
  "Dump of file libuplink.dll\n    ordinal hint RVA      name\n          1    0 00001000 uplink_access_grant\n          2    1 00001010 edge_register_access\n          3    2 00001020 internal_helper\n"

/-- A Windows world in which `gendef` cannot be spawned, so the script falls
back to `dumpbin` and `lib.exe`, which succeed. -/
def gendefFailWorld : World :=
  { baseWorld with
    targetOS := some "windows"
    gendef := .spawnErr
    dumpbin := .ran true sampleDumpbin
    libExistsAfterDlltool := false
    libExistsAfterLib := true }

/-- A docs.rs world: `DOCS_RS` is set and `.docs-rs` exists. -/
def docsRsWorld : World :=
  { baseWorld with docsRs := some "1", docsRsDirExists := true }

/-- A macOS world in which every observation succeeds. -/
def macWorld : World := { baseWorld with targetOS := some "macos" }

/-- A Windows world in which every observation succeeds via gendef/dlltool. -/
def windowsWorld : World :=
  { baseWorld with targetOS := some "windows", dllSrcExists := true }

/-- An oracle under which every filesystem operation succeeds. -/
def allOkOracle : FsOracle where
  mkdirOk := fun _ => true
  readDirOk := fun _ => true
  copyOk := fun _ => true

/-- A small sample directory tree. -/
def sampleTree : FsTree :=
  .dir [("uplink.h", .file "h"),
        ("sub", .dir [("a.c", .file "x"), ("inner", .dir [("b.h", .file "y")])])]

/-- An oracle whose `read_dir` always fails. -/
def noReadOracle : FsOracle := { allOkOracle with readDirOk := fun _ => false }

/-- An oracle under which copying the file `s/sub/a.c` fails. -/
def noCopyOracle : FsOracle :=
  { allOkOracle with copyOk := fun p => !(p == ["s", "sub", "a.c"]) }

/-- The operation trace of copying `sampleTree` under the all-ok oracle. -/
def sampleCopyOps : List FsOp :=
  ((copyDirRecursive allOkOracle sampleTree ["s"] ["d"]).toOption).getD []

/-! ## Infrastructure lemmas -/

theorem buildStep_of_ok (w : World) (h : buildPhaseOk w = true) :
    buildStep w = Except.ok (buildPhaseTrace w) := by
  unfold buildPhaseOk at h
  unfold buildStep buildPhaseTrace windowsBuildPhase unixBuildPhase
  by_cases hw : isWindows w = true
  · simp only [hw, if_true] at h ⊢
    cases hg : w.go with
    | spawnErr => rw [hg] at h; cases h
    | ran ok out =>
      rw [hg] at h
      simp only [Bool.and_eq_true] at h
      simp [h.1, h.2]
  · simp only [hw, if_false] at h ⊢
    cases hm : w.make with
    | spawnErr => rw [hm] at h; cases h
    | ran ok out => simp

theorem buildStep_of_fail (w : World) (h : buildPhaseOk w = false) :
    ∃ m, buildStep w = Except.error m := by
  unfold buildPhaseOk at h
  unfold buildStep windowsBuildPhase unixBuildPhase
  by_cases hw : isWindows w = true
  · simp only [hw, if_true] at h ⊢
    cases hg : w.go with
    | spawnErr => exact ⟨_, rfl⟩
    | ran ok out =>
      rw [hg] at h
      simp only [Bool.and_eq_false_iff] at h
      rcases h with h | h
      · simp [h]
      · cases ok <;> simp [h]
  · simp only [hw, if_false] at h ⊢
    cases hm : w.make with
    | spawnErr => exact ⟨_, rfl⟩
    | ran ok out => rw [hm] at h; cases h

set_option maxRecDepth 4000 in
theorem mainRun_of_ok (w : World) (h : mainOk w = true) :
    mainRun w = Except.ok (mainTrace w) := by
  unfold mainOk at h
  simp only [Bool.and_eq_true, Bool.or_eq_true] at h
  obtain ⟨⟨⟨hod, hdr⟩, hos⟩, hbg, hwk⟩ := h
  unfold mainRun mainTrace buildSeg copySeg docsSeg macSeg
  cases hodc : w.outDir with
  | none => rw [hodc] at hod; cases hod
  | some od =>
    simp only [Option.isNone_some, if_false, Bool.false_eq_true]
    cases hosc : w.targetOS with
    | none => rw [hosc] at hos; cases hos
    | some os =>
      cases hdrc : w.docsRs with
      | some dr =>
        simp [hbg, hwk]
      | none =>
        rw [hdrc] at hdr
        simp only [Option.isSome_none, Bool.false_eq_true, false_or] at hdr
        rw [buildStep_of_ok w hdr]
        simp [hbg, hwk]

set_option maxRecDepth 4000 in
theorem mainRun_of_fail (w : World) (h : mainOk w = false) :
    ∃ m, mainRun w = Except.error m := by
  unfold mainOk at h
  unfold mainRun
  cases hodc : w.outDir with
  | none => exact ⟨_, rfl⟩
  | some od =>
    rw [hodc] at h
    simp only [Option.isSome_some, Bool.true_and, Option.isNone_some,
      Bool.false_eq_true, if_false] at h ⊢
    cases hdrc : w.docsRs with
    | some dr =>
      rw [hdrc] at h
      simp only [Option.isSome_some, Bool.true_or, Bool.true_and,
        Option.isNone_some, Bool.false_eq_true, if_false] at h ⊢
      cases hosc : w.targetOS with
      | none => exact ⟨_, rfl⟩
      | some os =>
        cases hbg : w.bindgenOk with
        | false => exact ⟨"Error generating bindings.", by simp [hbg]⟩
        | true =>
          cases hwk : w.writeOk with
          | false =>
            exact ⟨"Error writing bindings to file.", by simp [hbg, hwk]⟩
          | true => rw [hosc, hbg, hwk] at h; simp at h
    | none =>
      rw [hdrc] at h
      simp only [Option.isSome_none, Bool.false_or, Option.isNone_none,
        if_true] at h ⊢
      cases hbp : buildPhaseOk w with
      | false =>
        obtain ⟨m, hm⟩ := buildStep_of_fail w hbp
        rw [hm]
        exact ⟨m, rfl⟩
      | true =>
        rw [hbp] at h
        rw [buildStep_of_ok w hbp]
        cases hosc : w.targetOS with
        | none => exact ⟨_, rfl⟩
        | some os =>
          cases hbg : w.bindgenOk with
          | false => exact ⟨"Error generating bindings.", by simp [hbg]⟩
          | true =>
            cases hwk : w.writeOk with
            | false =>
              exact ⟨"Error writing bindings to file.", by simp [hbg, hwk]⟩
            | true => rw [hosc, hbg, hwk] at h; simp at h

theorem mainRun_ok_iff (w : World) (tr : List Event) :
    mainRun w = Except.ok tr ↔ mainOk w = true ∧ tr = mainTrace w := by
  cases hmo : mainOk w with
  | true =>
    rw [mainRun_of_ok w hmo]
    simp only [Except.ok.injEq, true_and]
    exact eq_comm
  | false =>
    obtain ⟨m, hm⟩ := mainRun_of_fail w hmo
    rw [hm]
    simp

theorem mainRun_error_of_not_ok (w : World) (h : mainOk w = false) :
    ∃ m, mainRun w = Except.error m :=
  mainRun_of_fail w h

theorem panics_of_not_ok (w : World) (h : mainOk w = false) :
    panics (mainRun w) = true := by
  obtain ⟨m, hm⟩ := mainRun_error_of_not_ok w h
  rw [hm]
  rfl

/-! ### Shape of the trace segments -/

theorem mem_gendefDlltoolPhase (w : World) (e : Event)
    (h : e ∈ gendefDlltoolPhase w) :
    e = .invokeGendef ∨ (∃ s, e = .writeDef s) ∨ e = .invokeDlltool := by
  unfold gendefDlltoolPhase at h
  rcases hg : w.gendef with _ | ⟨ok, out⟩ <;> rw [hg] at h
  · simp at h; simp [h]
  · cases ok with
    | false => simp at h; simp [h]
    | true =>
      simp only [if_true] at h
      rcases List.mem_cons.mp h with h | h
      · simp [h]
      rcases List.mem_cons.mp h with h | h
      · exact Or.inr (Or.inl ⟨out, h⟩)
      · simp at h; simp [h]

theorem mem_dumpbinLibPhase (w : World) (e : Event)
    (h : e ∈ dumpbinLibPhase w) :
    e = .invokeDumpbin ∨ (∃ s, e = .writeDef s) ∨ e = .invokeLib := by
  unfold dumpbinLibPhase at h
  rcases hl : w.libExistsAfterDlltool <;> rw [hl] at h
  · rcases hd : w.dumpbin with _ | ⟨ok, out⟩ <;> rw [hd] at h
    · simp at h; simp [h]
    · cases ok with
      | false => simp at h; simp [h]
      | true =>
        simp only [if_true] at h
        rcases List.mem_cons.mp h with h | h
        · simp [h]
        rcases List.mem_cons.mp h with h | h
        · exact Or.inr (Or.inl ⟨defFileContent out, h⟩)
        · simp at h; simp [h]
  · simp at h

theorem mem_buildPhaseTrace (w : World) (e : Event)
    (h : e ∈ buildPhaseTrace w) :
    e = .invokeGo ∨ e = .invokeGendef ∨ e = .invokeDlltool ∨
      e = .invokeDumpbin ∨ e = .invokeLib ∨ e = .invokeMake ∨
      (∃ s, e = .writeDef s) := by
  unfold buildPhaseTrace at h
  by_cases hw : isWindows w = true
  · rw [if_pos hw] at h
    rcases List.mem_cons.mp h with h | h
    · simp [h]
    rcases List.mem_append.mp h with h | h
    · rcases mem_gendefDlltoolPhase w e h with h | h | h <;> simp [h]
    · rcases mem_dumpbinLibPhase w e h with h | h | h <;> simp [h]
  · rw [if_neg hw] at h
    simp at h
    simp [h]

theorem mem_copyHeadersPhase (w : World) (e : Event)
    (h : e ∈ copyHeadersPhase w) :
    (∃ s, e = .copyHeader s) ∨ e = .copyGeneratedHeader := by
  unfold copyHeadersPhase at h
  rcases List.mem_append.mp h with h | h
  · rcases List.mem_append.mp h with h | h
    · rcases hc : w.defHeaderExists <;> rw [hc] at h
      · cases h
      · simp at h; exact Or.inl ⟨_, h⟩
    · rcases hc : w.compatHeaderExists <;> rw [hc] at h
      · cases h
      · simp at h; exact Or.inl ⟨_, h⟩
  · rcases hc : w.genHeaderExists <;> rw [hc] at h
    · cases h
    · simp at h; simp [h]

theorem mem_buildSeg (w : World) (e : Event) (h : e ∈ buildSeg w) :
    e = .invokeGo ∨ e = .invokeGendef ∨ e = .invokeDlltool ∨
      e = .invokeDumpbin ∨ e = .invokeLib ∨ e = .invokeMake ∨
      (∃ s, e = .writeDef s) ∨ (∃ s, e = .copyHeader s) ∨
      e = .copyGeneratedHeader := by
  unfold buildSeg at h
  by_cases hd : w.docsRs.isNone = true
  · rw [if_pos hd] at h
    rcases List.mem_append.mp h with h | h
    · rcases mem_buildPhaseTrace w e h with h | h | h | h | h | h | h <;>
        simp [h]
    · rcases mem_copyHeadersPhase w e h with h | h <;> simp [h]
  · rw [if_neg hd] at h
    cases h

theorem mem_copySeg (w : World) (e : Event) (h : e ∈ copySeg w) :
    e = .removeOutDirCopy ∨ e = .copyProjectToOutDir := by
  unfold copySeg at h
  rcases List.mem_append.mp h with h | h
  · rcases hc : w.uplinkCDirExists <;> rw [hc] at h
    · cases h
    · simp at h; simp [h]
  · simp at h; simp [h]

theorem mem_docsSeg (w : World) (e : Event) (h : e ∈ docsSeg w) :
    e = .copyDocsRsLibs ∨ e = .removeSrcBuild := by
  unfold docsSeg at h
  rcases hd : w.docsRs with _ | dr <;> rw [hd] at h <;>
    simp only [Option.isSome_none, Option.isSome_some, Bool.false_eq_true,
      if_false, if_true] at h
  · rcases hc : w.srcBuildExists <;> rw [hc] at h
    · cases h
    · simp at h; simp [h]
  · rcases hc : w.docsRsDirExists <;> rw [hc] at h
    · cases h
    · simp at h; simp [h]

theorem mem_dllCopyPhase (w : World) (e : Event) (h : e ∈ dllCopyPhase w) :
    e = .copyDllToOutDir ∨ e = .copyDllToTarget := by
  unfold dllCopyPhase at h
  by_cases hw : isWindows w = true
  · rw [if_pos hw] at h
    rcases hc : w.dllSrcExists <;> rw [hc] at h
    · cases h
    · simp only [if_true] at h
      rcases List.mem_cons.mp h with h | h
      · simp [h]
      · rcases hp : w.profile with _ | p <;> rcases hm : w.manifestDir with _ | m <;>
          rw [hp, hm] at h <;> simp_all
  · rw [if_neg hw] at h
    cases h

theorem mem_macSeg (w : World) (e : Event) (h : e ∈ macSeg w) :
    e = .emitMacFrameworks := by
  unfold macSeg at h
  by_cases hm : w.targetOS = some "macos"
  · rw [if_pos hm] at h; simp_all
  · rw [if_neg hm] at h; cases h

theorem mem_mainTrace_cases (w : World) (e : Event) (h : e ∈ mainTrace w) :
    e = .locateUplinkCSrc ∨ e ∈ buildSeg w ∨ e ∈ copySeg w ∨ e ∈ docsSeg w ∨
      e = .emitLinkLib (!isWindows w) ∨ e = .emitLinkSearch ∨
      e ∈ dllCopyPhase w ∨ e = .emitRerunIfChanged ∨ e ∈ macSeg w ∨
      e = .generateBindings ∨ e = .writeBindingsFile := by
  unfold mainTrace at h
  simp only [List.mem_cons, List.mem_append] at h
  tauto

/-! ### `occursBefore` lemmas -/

theorem occursBefore_cons_tail (x : Event) (l : List Event) (a b : Event)
    (h : occursBefore l a b = true) : occursBefore (x :: l) a b = true := by
  unfold occursBefore
  rw [h]
  simp

theorem occursBefore_head (l : List Event) (a b : Event) (h : b ∈ l) :
    occursBefore (a :: l) a b = true := by
  unfold occursBefore
  simp [h]

theorem occursBefore_append_right (l0 l : List Event) (a b : Event)
    (h : occursBefore l a b = true) : occursBefore (l0 ++ l) a b = true := by
  induction l0 with
  | nil => exact h
  | cons x xs ih => exact occursBefore_cons_tail x (xs ++ l) a b ih

theorem occursBefore_append_of_mem (l1 l2 : List Event) (a b : Event)
    (ha : a ∈ l1) (hb : b ∈ l2) : occursBefore (l1 ++ l2) a b = true := by
  induction l1 with
  | nil => cases ha
  | cons x xs ih =>
    rcases List.mem_cons.mp ha with rfl | ha2
    · exact occursBefore_head (xs ++ l2) a b (List.mem_append.mpr (Or.inr hb))
    · exact occursBefore_cons_tail x (xs ++ l2) a b (ih ha2)

/-! ### Evaluation of the concrete allow-list patterns -/

theorem patternMatches_type1 (name : String) :
    patternMatches "Uplink.*" name = strStartsWith name "Uplink" := rfl

theorem patternMatches_type2 (name : String) :
    patternMatches "Edge.*" name = strStartsWith name "Edge" := rfl

theorem patternMatches_type3 (name : String) :
    patternMatches "uplink_const_char" name = (name == "uplink_const_char") := rfl

theorem patternMatches_fn1 (name : String) :
    patternMatches "uplink_.*" name = strStartsWith name "uplink_" := rfl

theorem patternMatches_fn2 (name : String) :
    patternMatches "edge_.*" name = strStartsWith name "edge_" := rfl

theorem patternMatches_var1 (name : String) :
    patternMatches "UPLINK_ERROR_.*" name = strStartsWith name "UPLINK_ERROR_" := rfl

theorem patternMatches_var2 (name : String) :
    patternMatches "EDGE_ERROR_.*" name = strStartsWith name "EDGE_ERROR_" := rfl

/-! ## Claims -/

/-- C2: a C declaration is selected by the allow-list configured on the
bindgen builder if and only if the spec's description says so: a type whose
name starts with `Uplink` or `Edge` or is exactly `uplink_const_char`, a
function whose name starts with `uplink_` or `edge_`, or a variable whose
name starts with `UPLINK_ERROR_` or `EDGE_ERROR_`; no other pattern
participates in the selection. -/
theorem C2_allowlist_selection (k : DeclKind) (name : String) :
    allowlisted k name = specAllowed k name := by
  cases k <;>
    simp only [allowlisted, specAllowed, allowlistTypePatterns,
      allowlistFunctionPatterns, allowlistVarPatterns, List.any_cons,
      List.any_nil, patternMatches_type1, patternMatches_type2,
      patternMatches_type3, patternMatches_fn1, patternMatches_fn2,
      patternMatches_var1, patternMatches_var2, Bool.or_false, Bool.or_assoc]

/-- C4: when `main` returns normally the generated bindings file has been
written into `OUT_DIR`, and whenever the bindings cannot be generated or
written, `main` panics. -/
theorem C4_artifact_or_panic (w : World) (tr : List Event) :
    (mainRun w = Except.ok tr → Event.writeBindingsFile ∈ tr) ∧
      (w.bindgenOk = false ∨ w.writeOk = false → panics (mainRun w) = true) := by
  constructor
  · intro h
    obtain ⟨-, rfl⟩ := (mainRun_ok_iff w tr).mp h
    unfold mainTrace
    simp
  · intro h
    apply panics_of_not_ok
    unfold mainOk
    rcases h with h | h <;> simp [h]

/-- Witness for C4 at concrete worlds. -/
theorem C4_artifact_or_panic_witness :
    Event.writeBindingsFile ∈ mainTrace baseWorld ∧
      panics (mainRun { baseWorld with bindgenOk := false }) = true := by
  constructor
  · exact (C4_artifact_or_panic baseWorld (mainTrace baseWorld)).1
      (mainRun_of_ok baseWorld (by decide))
  · exact (C4_artifact_or_panic { baseWorld with bindgenOk := false } []).2
      (Or.inl rfl)

theorem mem_emitLinkLib_iff (w : World) (b : Bool) :
    Event.emitLinkLib b ∈ mainTrace w ↔ b = !isWindows w := by
  constructor
  · intro hmem
    rcases mem_mainTrace_cases w _ hmem with h | h | h | h | h | h | h | h | h | h | h
    · cases h
    · rcases mem_buildSeg w _ h with
        h | h | h | h | h | h | ⟨s, h⟩ | ⟨s, h⟩ | h <;> cases h
    · rcases mem_copySeg w _ h with h | h <;> cases h
    · rcases mem_docsSeg w _ h with h | h <;> cases h
    · injection h
    · cases h
    · rcases mem_dllCopyPhase w _ h with h | h <;> cases h
    · cases h
    · cases mem_macSeg w _ h
    · cases h
    · cases h
  · rintro rfl
    unfold mainTrace
    simp

theorem mem_emitMacFrameworks_iff (w : World) :
    Event.emitMacFrameworks ∈ mainTrace w ↔ w.targetOS = some "macos" := by
  constructor
  · intro hmem
    rcases mem_mainTrace_cases w _ hmem with h | h | h | h | h | h | h | h | h | h | h
    · cases h
    · rcases mem_buildSeg w _ h with
        h | h | h | h | h | h | ⟨s, h⟩ | ⟨s, h⟩ | h <;> cases h
    · rcases mem_copySeg w _ h with h | h <;> cases h
    · rcases mem_docsSeg w _ h with h | h <;> cases h
    · cases h
    · cases h
    · rcases mem_dllCopyPhase w _ h with h | h <;> cases h
    · cases h
    · unfold macSeg at h
      by_cases hm : w.targetOS = some "macos"
      · exact hm
      · rw [if_neg hm] at h; cases h
    · cases h
    · cases h
  · intro hm
    unfold mainTrace macSeg
    simp [hm]

/-- C5: the linkage directives are platform-conditional exactly as the spec
states: on Windows the dynamic directive `cargo:rustc-link-lib=uplink` is
emitted (and the static one is not), on every other target the static
directive `cargo:rustc-link-lib=static=uplink` is emitted (and the dynamic
one is not), and the CoreFoundation/Security framework flags are emitted
exactly when the target OS is macOS. -/
theorem C5_linkage_flags (w : World) (tr : List Event)
    (h : mainRun w = Except.ok tr) :
    (isWindows w = true →
      Event.emitLinkLib false ∈ tr ∧ Event.emitLinkLib true ∉ tr) ∧
    (isWindows w = false →
      Event.emitLinkLib true ∈ tr ∧ Event.emitLinkLib false ∉ tr) ∧
    (w.targetOS = some "macos" → Event.emitMacFrameworks ∈ tr) ∧
    (w.targetOS ≠ some "macos" → Event.emitMacFrameworks ∉ tr) := by
  obtain ⟨-, rfl⟩ := (mainRun_ok_iff w tr).mp h
  refine ⟨?_, ?_, ?_, ?_⟩
  · intro hw
    constructor
    · exact (mem_emitLinkLib_iff w false).mpr (by rw [hw]; rfl)
    · intro hmem
      have := (mem_emitLinkLib_iff w true).mp hmem
      rw [hw] at this
      cases this
  · intro hw
    constructor
    · exact (mem_emitLinkLib_iff w true).mpr (by rw [hw]; rfl)
    · intro hmem
      have := (mem_emitLinkLib_iff w false).mp hmem
      rw [hw] at this
      cases this
  · exact fun hm => (mem_emitMacFrameworks_iff w).mpr hm
  · exact fun hm hmem => hm ((mem_emitMacFrameworks_iff w).mp hmem)

/-- Witness for C5 on a macOS world (static link directive, frameworks
emitted) and, through the same theorem, on a Windows world. -/
theorem C5_linkage_flags_witness :
    (Event.emitLinkLib true ∈ mainTrace macWorld ∧
      Event.emitLinkLib false ∉ mainTrace macWorld) ∧
    Event.emitMacFrameworks ∈ mainTrace macWorld ∧
    (Event.emitLinkLib false ∈ mainTrace windowsWorld ∧
      Event.emitLinkLib true ∉ mainTrace windowsWorld) := by
  have hm := C5_linkage_flags macWorld (mainTrace macWorld)
    (mainRun_of_ok macWorld (by decide))
  have hw := C5_linkage_flags windowsWorld (mainTrace windowsWorld)
    (mainRun_of_ok windowsWorld (by decide))
  exact ⟨hm.2.1 (by decide), hm.2.2.1 rfl, hw.1 (by decide)⟩

/-- C1 counterexample: in `makeFailWorld` the `make` invocation runs but
exits unsuccessfully — a failed external-tool invocation — yet `main`
returns normally and the run continues past the failed step (the project
copy happens after the failed `make`).  So not every failure aborts the
build: the exit status of `make` is never inspected (line 138 only
`expect`s the spawn). -/
theorem C1_counterexample :
    makeFailWorld.make = CmdResult.ran false "" ∧
      mainRun makeFailWorld = Except.ok (mainTrace makeFailWorld) ∧
      occursBefore (mainTrace makeFailWorld) Event.invokeMake
        Event.copyProjectToOutDir = true := by
  refine ⟨rfl, ?_, by decide⟩
  exact mainRun_of_ok makeFailWorld (by decide)

/-- C1 (amended): the failures on the mandatory path do abort the run with a
diagnostic (the `error` payload): a missing `OUT_DIR`, a `go build` that
cannot be spawned or exits unsuccessfully, a Windows run that cannot produce
an import library, a `make` that cannot be spawned, a missing
`CARGO_CFG_TARGET_OS`, and a failed binding generation or write.  (What the
original claim misses: a `make` that runs but exits unsuccessfully, the
individual import-library tool failures that fall through to the
dumpbin/lib.exe alternative, and the file copies guarded by `.ok()` are all
silently ignored.) -/
theorem C1_amended_aborts (w : World) (out : String) :
    (w.outDir = none → panics (mainRun w) = true) ∧
    (w.docsRs = none → isWindows w = true → w.go = CmdResult.spawnErr →
      panics (mainRun w) = true) ∧
    (w.docsRs = none → isWindows w = true → w.go = CmdResult.ran false out →
      panics (mainRun w) = true) ∧
    (w.docsRs = none → isWindows w = true → w.libExistsAfterLib = false →
      panics (mainRun w) = true) ∧
    (w.docsRs = none → isWindows w = false → w.make = CmdResult.spawnErr →
      panics (mainRun w) = true) ∧
    (w.targetOS = none → panics (mainRun w) = true) ∧
    (w.bindgenOk = false → panics (mainRun w) = true) ∧
    (w.writeOk = false → panics (mainRun w) = true) := by
  refine ⟨fun h => ?_, fun h1 h2 h3 => ?_, fun h1 h2 h3 => ?_,
    fun h1 h2 h3 => ?_, fun h1 h2 h3 => ?_, fun h => ?_, fun h => ?_,
    fun h => ?_⟩ <;>
    apply panics_of_not_ok <;> unfold mainOk buildPhaseOk
  · simp [h]
  · simp_all
  · simp_all
  · rcases hg : w.go with _ | ⟨ok, o2⟩ <;> simp_all
  · simp_all
  · simp [h]
  · simp [h]
  · simp [h]

/-- Witness for C1 (amended) at concrete worlds: a missing `OUT_DIR` and an
unspawnable `make` both abort. -/
theorem C1_amended_aborts_witness :
    panics (mainRun { baseWorld with outDir := none }) = true ∧
      panics (mainRun { baseWorld with make := CmdResult.spawnErr }) = true := by
  constructor
  · exact (C1_amended_aborts { baseWorld with outDir := none } "").1 rfl
  · exact (C1_amended_aborts { baseWorld with make := CmdResult.spawnErr } "").2.2.2.2.1
      rfl (by decide) rfl

theorem buildSeg_eq_nil_of_docsRs (w : World) (hd : w.docsRs.isSome = true) :
    buildSeg w = [] := by
  unfold buildSeg
  obtain ⟨dr, hdr⟩ := Option.isSome_iff_exists.mp hd
  rw [hdr]
  rfl

theorem tools_notMem_of_docsRs (w : World) (hd : w.docsRs.isSome = true) :
    Event.invokeGo ∉ mainTrace w ∧ Event.invokeMake ∉ mainTrace w ∧
      Event.invokeGendef ∉ mainTrace w ∧ Event.invokeDlltool ∉ mainTrace w ∧
      Event.invokeDumpbin ∉ mainTrace w ∧ Event.invokeLib ∉ mainTrace w := by
  refine ⟨?_, ?_, ?_, ?_, ?_, ?_⟩ <;> intro hmem <;>
    rcases mem_mainTrace_cases w _ hmem with
      h | h | h | h | h | h | h | h | h | h | h <;>
    first
      | cases h
      | (rw [buildSeg_eq_nil_of_docsRs w hd] at h; cases h)
      | (rcases mem_copySeg w _ h with h | h <;> cases h)
      | (rcases mem_docsSeg w _ h with h | h <;> cases h)
      | (rcases mem_dllCopyPhase w _ h with h | h <;> cases h)
      | (cases mem_macSeg w _ h)

/-- C6 counterexample: on a docs.rs run (`DOCS_RS` set) `main` returns
normally without ever invoking the external compiler or build tool — neither
`go build` nor `make` appears in the trace — so it is not true that every
run performs the four operations. -/
theorem C6_counterexample :
    docsRsWorld.docsRs = some "1" ∧
      mainRun docsRsWorld = Except.ok (mainTrace docsRsWorld) ∧
      Event.invokeGo ∉ mainTrace docsRsWorld ∧
      Event.invokeMake ∉ mainTrace docsRsWorld := by
  exact ⟨rfl, mainRun_of_ok docsRsWorld (by decide), by decide, by decide⟩

/-- C6 (amended): on every run that is not for docs.rs, the four operations
happen in the fixed order — the `uplink-c` directory is located first, the
external build tool (`go build` on Windows, `make` elsewhere) runs before
the project is copied into `OUT_DIR`, and binding generation comes after
the copy.  On a docs.rs run (`DOCS_RS` set) the external compiler step is
skipped entirely; the remaining operations keep the same order, and binding
generation is still last. -/
theorem C6_amended_order (w : World) (tr : List Event)
    (h : mainRun w = Except.ok tr) :
    tr.head? = some Event.locateUplinkCSrc ∧
    (w.docsRs = none → isWindows w = true →
      occursBefore tr Event.invokeGo Event.copyProjectToOutDir = true) ∧
    (w.docsRs = none → isWindows w = false →
      occursBefore tr Event.invokeMake Event.copyProjectToOutDir = true) ∧
    occursBefore tr Event.copyProjectToOutDir Event.generateBindings = true ∧
    (w.docsRs.isSome = true →
      Event.invokeGo ∉ tr ∧ Event.invokeMake ∉ tr) := by
  obtain ⟨-, rfl⟩ := (mainRun_ok_iff w tr).mp h
  refine ⟨rfl, ?_, ?_, ?_, ?_⟩
  · intro hdr hw
    unfold mainTrace
    simp only [List.append_assoc]
    apply occursBefore_cons_tail
    apply occursBefore_append_of_mem
    · unfold buildSeg buildPhaseTrace
      rw [hdr]
      simp [hw]
    · simp [copySeg]
  · intro hdr hw
    unfold mainTrace
    simp only [List.append_assoc]
    apply occursBefore_cons_tail
    apply occursBefore_append_of_mem
    · unfold buildSeg buildPhaseTrace
      rw [hdr]
      simp [hw]
    · simp [copySeg]
  · unfold mainTrace
    simp only [List.append_assoc]
    apply occursBefore_cons_tail
    apply occursBefore_append_right
    apply occursBefore_append_of_mem
    · simp [copySeg]
    · simp
  · intro hd
    exact ⟨(tools_notMem_of_docsRs w hd).1, (tools_notMem_of_docsRs w hd).2.1⟩

/-- Witness for C6 (amended) on a concrete Linux world. -/
theorem C6_amended_order_witness :
    (mainTrace baseWorld).head? = some Event.locateUplinkCSrc ∧
      occursBefore (mainTrace baseWorld) Event.invokeMake
        Event.copyProjectToOutDir = true ∧
      occursBefore (mainTrace baseWorld) Event.copyProjectToOutDir
        Event.generateBindings = true := by
  have h := C6_amended_order baseWorld (mainTrace baseWorld)
    (mainRun_of_ok baseWorld (by decide))
  exact ⟨h.1, h.2.2.1 rfl (by decide), h.2.2.2.1⟩

/-- C9: when `DOCS_RS` is set no external compiler or build tool is invoked
at all and (when `.docs-rs` exists) the precompiled libraries are copied
into the `.build` directory of the `OUT_DIR` copy, after the project copy;
when `DOCS_RS` is unset, after the project is copied into `OUT_DIR` the
`.build` directory inside the original source tree is deleted (when it
exists). -/
theorem C9_docs_rs_behaviour (w : World) (tr : List Event)
    (h : mainRun w = Except.ok tr) :
    (w.docsRs.isSome = true →
      (Event.invokeGo ∉ tr ∧ Event.invokeMake ∉ tr ∧
        Event.invokeGendef ∉ tr ∧ Event.invokeDlltool ∉ tr ∧
        Event.invokeDumpbin ∉ tr ∧ Event.invokeLib ∉ tr) ∧
      (w.docsRsDirExists = true →
        occursBefore tr Event.copyProjectToOutDir Event.copyDocsRsLibs = true)) ∧
    (w.docsRs = none → w.srcBuildExists = true →
      occursBefore tr Event.copyProjectToOutDir Event.removeSrcBuild = true) := by
  obtain ⟨-, rfl⟩ := (mainRun_ok_iff w tr).mp h
  constructor
  · intro hd
    refine ⟨tools_notMem_of_docsRs w hd, ?_⟩
    intro hex
    unfold mainTrace
    simp only [List.append_assoc]
    apply occursBefore_cons_tail
    apply occursBefore_append_right
    apply occursBefore_append_of_mem
    · simp [copySeg]
    · obtain ⟨dr, hdr⟩ := Option.isSome_iff_exists.mp hd
      simp [docsSeg, hdr, hex]
  · intro hdr hsb
    unfold mainTrace
    simp only [List.append_assoc]
    apply occursBefore_cons_tail
    apply occursBefore_append_right
    apply occursBefore_append_of_mem
    · simp [copySeg]
    · simp [docsSeg, hdr, hsb]

/-- Witness for C9 on concrete docs.rs and Linux worlds. -/
theorem C9_docs_rs_behaviour_witness :
    Event.invokeMake ∉ mainTrace docsRsWorld ∧
      occursBefore (mainTrace docsRsWorld) Event.copyProjectToOutDir
        Event.copyDocsRsLibs = true ∧
      occursBefore (mainTrace baseWorld) Event.copyProjectToOutDir
        Event.removeSrcBuild = true := by
  have h1 := C9_docs_rs_behaviour docsRsWorld (mainTrace docsRsWorld)
    (mainRun_of_ok docsRsWorld (by decide))
  have h2 := C9_docs_rs_behaviour baseWorld (mainTrace baseWorld)
    (mainRun_of_ok baseWorld (by decide))
  exact ⟨((h1.1 rfl).1).2.1, (h1.1 rfl).2 rfl, h2.2 rfl rfl⟩

/-! ### Support for C3: invocation counts and the fallback structure -/

theorem gendef_phase_notMem (w : World) (e : Event)
    (he : e = .invokeGo ∨ e = .invokeDumpbin ∨ e = .invokeLib ∨
      e = .invokeMake) :
    e ∉ gendefDlltoolPhase w := by
  intro h
  rcases mem_gendefDlltoolPhase w _ h with h | ⟨s, h⟩ | h <;>
    rcases he with rfl | rfl | rfl | rfl <;> cases h

theorem dumpbin_phase_notMem (w : World) (e : Event)
    (he : e = .invokeGo ∨ e = .invokeGendef ∨ e = .invokeDlltool ∨
      e = .invokeMake) :
    e ∉ dumpbinLibPhase w := by
  intro h
  rcases mem_dumpbinLibPhase w _ h with h | ⟨s, h⟩ | h <;>
    rcases he with rfl | rfl | rfl | rfl <;> cases h

theorem tool_notMem_copyHeadersPhase (w : World) (e : Event)
    (he : e = .invokeGo ∨ e = .invokeGendef ∨ e = .invokeDlltool ∨
      e = .invokeDumpbin ∨ e = .invokeLib ∨ e = .invokeMake) :
    e ∉ copyHeadersPhase w := by
  intro h
  rcases mem_copyHeadersPhase w _ h with ⟨s, h⟩ | h <;>
    rcases he with rfl | rfl | rfl | rfl | rfl | rfl <;> cases h

theorem nodup_gendefDlltoolPhase (w : World) :
    (gendefDlltoolPhase w).Nodup := by
  unfold gendefDlltoolPhase
  rcases w.gendef with _ | ⟨ok, out⟩
  · simp
  · cases ok <;> simp

theorem nodup_dumpbinLibPhase (w : World) :
    (dumpbinLibPhase w).Nodup := by
  unfold dumpbinLibPhase
  rcases w.libExistsAfterDlltool
  · rcases w.dumpbin with _ | ⟨ok, out⟩
    · simp
    · cases ok <;> simp
  · simp

theorem mem_buildSeg_split (w : World) (e : Event) (h : e ∈ buildSeg w) :
    w.docsRs = none ∧ (e ∈ buildPhaseTrace w ∨ e ∈ copyHeadersPhase w) := by
  unfold buildSeg at h
  rcases hd : w.docsRs with _ | dr <;> rw [hd] at h
  · simp only [Option.isNone_none, if_true] at h
    exact ⟨rfl, List.mem_append.mp h⟩
  · simp at h

theorem mem_buildPhaseTrace_unix (w : World) (e : Event)
    (hw : isWindows w = false) (h : e ∈ buildPhaseTrace w) :
    e = .invokeMake := by
  unfold buildPhaseTrace at h
  rw [if_neg (by simp [hw])] at h
  simpa using h

theorem mem_buildPhaseTrace_win (w : World) (e : Event)
    (hw : isWindows w = true) (h : e ∈ buildPhaseTrace w) :
    e = .invokeGo ∨ e ∈ gendefDlltoolPhase w ∨ e ∈ dumpbinLibPhase w := by
  unfold buildPhaseTrace at h
  rw [if_pos hw] at h
  rcases List.mem_cons.mp h with h | h
  · exact Or.inl h
  · exact Or.inr (List.mem_append.mp h)

theorem count_buildPhaseTrace_le (w : World) (e : Event)
    (he : e = .invokeGo ∨ e = .invokeGendef ∨ e = .invokeDlltool ∨
      e = .invokeDumpbin ∨ e = .invokeLib ∨ e = .invokeMake) :
    (buildPhaseTrace w).count e ≤ 1 := by
  unfold buildPhaseTrace
  by_cases hw : isWindows w = true
  · rw [if_pos hw]
    have hA := List.nodup_iff_count_le_one.mp (nodup_gendefDlltoolPhase w) e
    have hB := List.nodup_iff_count_le_one.mp (nodup_dumpbinLibPhase w) e
    rcases he with rfl | rfl | rfl | rfl | rfl | rfl
    · have hA0 : (gendefDlltoolPhase w).count Event.invokeGo = 0 :=
        List.count_eq_zero.mpr (gendef_phase_notMem w _ (Or.inl rfl))
      have hB0 : (dumpbinLibPhase w).count Event.invokeGo = 0 :=
        List.count_eq_zero.mpr (dumpbin_phase_notMem w _ (Or.inl rfl))
      simp [List.count_cons, List.count_append, hA0, hB0]
    · have hB0 : (dumpbinLibPhase w).count Event.invokeGendef = 0 :=
        List.count_eq_zero.mpr
          (dumpbin_phase_notMem w _ (Or.inr (Or.inl rfl)))
      simp only [List.count_cons, List.count_append, hB0]
      simpa using hA
    · have hB0 : (dumpbinLibPhase w).count Event.invokeDlltool = 0 :=
        List.count_eq_zero.mpr
          (dumpbin_phase_notMem w _ (Or.inr (Or.inr (Or.inl rfl))))
      simp only [List.count_cons, List.count_append, hB0]
      simpa using hA
    · have hA0 : (gendefDlltoolPhase w).count Event.invokeDumpbin = 0 :=
        List.count_eq_zero.mpr
          (gendef_phase_notMem w _ (Or.inr (Or.inl rfl)))
      simp only [List.count_cons, List.count_append, hA0]
      simpa using hB
    · have hA0 : (gendefDlltoolPhase w).count Event.invokeLib = 0 :=
        List.count_eq_zero.mpr
          (gendef_phase_notMem w _ (Or.inr (Or.inr (Or.inl rfl))))
      simp only [List.count_cons, List.count_append, hA0]
      simpa using hB
    · have hA0 : (gendefDlltoolPhase w).count Event.invokeMake = 0 :=
        List.count_eq_zero.mpr
          (gendef_phase_notMem w _ (Or.inr (Or.inr (Or.inr rfl))))
      have hB0 : (dumpbinLibPhase w).count Event.invokeMake = 0 :=
        List.count_eq_zero.mpr
          (dumpbin_phase_notMem w _ (Or.inr (Or.inr (Or.inr rfl))))
      simp [List.count_cons, List.count_append, hA0, hB0]
  · rw [if_neg hw]
    rcases he with rfl | rfl | rfl | rfl | rfl | rfl <;> simp [List.count_cons]

theorem count_buildSeg_le (w : World) (e : Event)
    (he : e = .invokeGo ∨ e = .invokeGendef ∨ e = .invokeDlltool ∨
      e = .invokeDumpbin ∨ e = .invokeLib ∨ e = .invokeMake) :
    (buildSeg w).count e ≤ 1 := by
  unfold buildSeg
  rcases hd : w.docsRs with _ | dr
  · simp only [Option.isNone_none, if_true]
    rw [List.count_append,
      List.count_eq_zero.mpr (tool_notMem_copyHeadersPhase w e he)]
    simpa using count_buildPhaseTrace_le w e he
  · simp

theorem tool_notMem_postBuild (w : World) (e : Event)
    (he : e = .invokeGo ∨ e = .invokeGendef ∨ e = .invokeDlltool ∨
      e = .invokeDumpbin ∨ e = .invokeLib ∨ e = .invokeMake) :
    e ∉ copySeg w ∧ e ∉ docsSeg w ∧ e ∉ dllCopyPhase w ∧ e ∉ macSeg w := by
  refine ⟨fun h => ?_, fun h => ?_, fun h => ?_, fun h => ?_⟩
  · rcases mem_copySeg w _ h with h | h <;>
      rcases he with rfl | rfl | rfl | rfl | rfl | rfl <;> cases h
  · rcases mem_docsSeg w _ h with h | h <;>
      rcases he with rfl | rfl | rfl | rfl | rfl | rfl <;> cases h
  · rcases mem_dllCopyPhase w _ h with h | h <;>
      rcases he with rfl | rfl | rfl | rfl | rfl | rfl <;> cases h
  · have := mem_macSeg w _ h
    rcases he with rfl | rfl | rfl | rfl | rfl | rfl <;> cases this

theorem count_mainTrace_le (w : World) (e : Event)
    (he : e = .invokeGo ∨ e = .invokeGendef ∨ e = .invokeDlltool ∨
      e = .invokeDumpbin ∨ e = .invokeLib ∨ e = .invokeMake) :
    (mainTrace w).count e ≤ 1 := by
  obtain ⟨h1, h2, h3, h4⟩ := tool_notMem_postBuild w e he
  have hc := count_buildSeg_le w e he
  unfold mainTrace
  rw [List.count_cons]
  simp only [List.count_append]
  rw [List.count_eq_zero.mpr h1, List.count_eq_zero.mpr h2,
    List.count_eq_zero.mpr h3, List.count_eq_zero.mpr h4]
  rcases he with rfl | rfl | rfl | rfl | rfl | rfl <;>
    simp_all [List.count_cons]

theorem dumpbin_mem_fallback (w : World)
    (h : Event.invokeDumpbin ∈ mainTrace w) :
    w.libExistsAfterDlltool = false := by
  rcases hl : w.libExistsAfterDlltool
  · rfl
  exfalso
  have hnil : dumpbinLibPhase w = [] := by
    unfold dumpbinLibPhase
    rw [hl]
    rfl
  have hpost := tool_notMem_postBuild w Event.invokeDumpbin
    (Or.inr (Or.inr (Or.inr (Or.inl rfl))))
  rcases mem_mainTrace_cases w _ h with h | h | h | h | h | h | h | h | h | h | h
  · cases h
  · obtain ⟨-, h | h⟩ := mem_buildSeg_split w _ h
    · by_cases hw : isWindows w = true
      · rcases mem_buildPhaseTrace_win w _ hw h with h | h | h
        · cases h
        · exact gendef_phase_notMem w _ (Or.inr (Or.inl rfl)) h
        · rw [hnil] at h; cases h
      · cases mem_buildPhaseTrace_unix w _ (by simpa using hw) h
    · exact tool_notMem_copyHeadersPhase w _
        (Or.inr (Or.inr (Or.inr (Or.inl rfl)))) h
  · exact hpost.1 h
  · exact hpost.2.1 h
  · cases h
  · cases h
  · exact hpost.2.2.1 h
  · cases h
  · exact hpost.2.2.2 h
  · cases h
  · cases h

theorem unix_no_windows_tools (w : World) (hw : isWindows w = false)
    (e : Event)
    (he : e = .invokeGo ∨ e = .invokeGendef ∨ e = .invokeDlltool ∨
      e = .invokeDumpbin ∨ e = .invokeLib) :
    e ∉ mainTrace w := by
  intro hmem
  have he6 : e = .invokeGo ∨ e = .invokeGendef ∨ e = .invokeDlltool ∨
      e = .invokeDumpbin ∨ e = .invokeLib ∨ e = .invokeMake := by tauto
  have hpost := tool_notMem_postBuild w e he6
  rcases mem_mainTrace_cases w _ hmem with
    h | h | h | h | h | h | h | h | h | h | h
  · rcases he with rfl | rfl | rfl | rfl | rfl <;> cases h
  · obtain ⟨-, h | h⟩ := mem_buildSeg_split w _ h
    · have := mem_buildPhaseTrace_unix w _ hw h
      rcases he with rfl | rfl | rfl | rfl | rfl <;> cases this
    · exact tool_notMem_copyHeadersPhase w _ he6 h
  · exact hpost.1 h
  · exact hpost.2.1 h
  · rcases he with rfl | rfl | rfl | rfl | rfl <;> cases h
  · rcases he with rfl | rfl | rfl | rfl | rfl <;> cases h
  · exact hpost.2.2.1 h
  · rcases he with rfl | rfl | rfl | rfl | rfl <;> cases h
  · exact hpost.2.2.2 h
  · rcases he with rfl | rfl | rfl | rfl | rfl <;> cases h
  · rcases he with rfl | rfl | rfl | rfl | rfl <;> cases h

theorem windows_no_make (w : World) (hw : isWindows w = true) :
    Event.invokeMake ∉ mainTrace w := by
  intro hmem
  have he6 : Event.invokeMake = Event.invokeGo ∨
      Event.invokeMake = Event.invokeGendef ∨
      Event.invokeMake = Event.invokeDlltool ∨
      Event.invokeMake = Event.invokeDumpbin ∨
      Event.invokeMake = Event.invokeLib ∨
      Event.invokeMake = Event.invokeMake := by tauto
  have hpost := tool_notMem_postBuild w Event.invokeMake he6
  rcases mem_mainTrace_cases w _ hmem with
    h | h | h | h | h | h | h | h | h | h | h
  · cases h
  · obtain ⟨-, h | h⟩ := mem_buildSeg_split w _ h
    · rcases mem_buildPhaseTrace_win w _ hw h with h | h | h
      · cases h
      · exact gendef_phase_notMem w _ (Or.inr (Or.inr (Or.inr rfl))) h
      · exact dumpbin_phase_notMem w _ (Or.inr (Or.inr (Or.inr rfl))) h
    · exact tool_notMem_copyHeadersPhase w _ he6 h
  · exact hpost.1 h
  · exact hpost.2.1 h
  · cases h
  · cases h
  · exact hpost.2.2.1 h
  · cases h
  · exact hpost.2.2.2 h
  · cases h
  · cases h

/-- C3 counterexample: in `gendefFailWorld` (a Windows world) the `gendef`
invocation fails to spawn, and yet `main` returns normally, with `dumpbin`
invoked after `gendef` in the trace — an alternative tool tried after a
failure, contradicting the claim that no tool has a recovery path other
than aborting. -/
theorem C3_counterexample :
    gendefFailWorld.gendef = CmdResult.spawnErr ∧
      mainRun gendefFailWorld = Except.ok (mainTrace gendefFailWorld) ∧
      occursBefore (mainTrace gendefFailWorld) Event.invokeGendef
        Event.invokeDumpbin = true := by
  exact ⟨rfl, mainRun_of_ok gendefFailWorld (by decide), by decide⟩

/-- C3 (amended): no external tool is ever invoked twice in one run (there
are no retries); on non-Windows targets the only tool invoked is `make`; on
Windows `make` is never invoked, and the dumpbin/lib.exe pair runs only as
the fallback when the gendef/dlltool attempt left no import library.  The
fallback chain of the Windows import-library step is the one recovery path
that is not simply aborting. -/
theorem C3_amended_invocations (w : World) (tr : List Event)
    (h : mainRun w = Except.ok tr) :
    (tr.count Event.invokeGo ≤ 1 ∧ tr.count Event.invokeGendef ≤ 1 ∧
      tr.count Event.invokeDlltool ≤ 1 ∧ tr.count Event.invokeDumpbin ≤ 1 ∧
      tr.count Event.invokeLib ≤ 1 ∧ tr.count Event.invokeMake ≤ 1) ∧
    (Event.invokeDumpbin ∈ tr → w.libExistsAfterDlltool = false) ∧
    (isWindows w = false →
      Event.invokeGo ∉ tr ∧ Event.invokeGendef ∉ tr ∧
        Event.invokeDlltool ∉ tr ∧ Event.invokeDumpbin ∉ tr ∧
        Event.invokeLib ∉ tr) ∧
    (isWindows w = true → Event.invokeMake ∉ tr) := by
  obtain ⟨-, rfl⟩ := (mainRun_ok_iff w tr).mp h
  refine ⟨⟨?_, ?_, ?_, ?_, ?_, ?_⟩, ?_, ?_, ?_⟩
  · exact count_mainTrace_le w _ (Or.inl rfl)
  · exact count_mainTrace_le w _ (Or.inr (Or.inl rfl))
  · exact count_mainTrace_le w _ (Or.inr (Or.inr (Or.inl rfl)))
  · exact count_mainTrace_le w _ (Or.inr (Or.inr (Or.inr (Or.inl rfl))))
  · exact count_mainTrace_le w _
      (Or.inr (Or.inr (Or.inr (Or.inr (Or.inl rfl)))))
  · exact count_mainTrace_le w _
      (Or.inr (Or.inr (Or.inr (Or.inr (Or.inr rfl)))))
  · exact dumpbin_mem_fallback w
  · intro hw
    exact ⟨unix_no_windows_tools w hw _ (Or.inl rfl),
      unix_no_windows_tools w hw _ (Or.inr (Or.inl rfl)),
      unix_no_windows_tools w hw _ (Or.inr (Or.inr (Or.inl rfl))),
      unix_no_windows_tools w hw _ (Or.inr (Or.inr (Or.inr (Or.inl rfl)))),
      unix_no_windows_tools w hw _
        (Or.inr (Or.inr (Or.inr (Or.inr rfl))))⟩
  · exact windows_no_make w

/-- Witness for C3 (amended) on a concrete Windows world that used the
fallback. -/
theorem C3_amended_invocations_witness :
    (mainTrace gendefFailWorld).count Event.invokeDumpbin ≤ 1 ∧
      gendefFailWorld.libExistsAfterDlltool = false ∧
      Event.invokeMake ∉ mainTrace gendefFailWorld := by
  have h := C3_amended_invocations gendefFailWorld (mainTrace gendefFailWorld)
    (mainRun_of_ok gendefFailWorld (by decide))
  exact ⟨h.1.2.2.2.1, h.2.1 (by decide), h.2.2.2 (by decide)⟩

/-! ### Support for C8: the `.def` file contents -/

theorem exportOfLine_eq_spec (line : String) :
    exportOfLine line = specExportOfLine line := by
  unfold exportOfLine specExportOfLine
  rcases hs : splitWhitespace line with _ | ⟨p0, rest⟩
  · simp
  rcases rest with _ | ⟨p1, rest2⟩
  · simp
  rcases rest2 with _ | ⟨p2, rest3⟩
  · simp
  rcases rest3 with _ | ⟨p3, rest4⟩
  · simp
  simp only [List.getD_cons_zero, List.getD_cons_succ, List.length_cons]
  cases hp : rustParseU32 p0 with
  | none => simp [hp]
  | some v =>
    simp only [hp, Option.isSome_some]
    by_cases hb : (strStartsWith p3 "uplink_" || strStartsWith p3 "edge_") = true
    · rw [if_pos hb, if_pos]
      refine ⟨by omega, trivial, ?_⟩
      simpa using hb
    · rw [if_neg hb, if_neg]
      intro hc
      apply hb
      rcases hc.2.2 with h | h <;> simp [h]

theorem defFold (l : List String) (acc : String) :
    l.foldl (fun acc line =>
      match exportOfLine line with
      | some name => acc ++ "    " ++ name ++ "\n"
      | none => acc) acc =
      acc ++ strConcat ((l.filterMap exportOfLine).map defLineOf) := by
  induction l generalizing acc with
  | nil => simp [strConcat, String.append_empty]
  | cons hd tl ih =>
    simp only [List.foldl_cons, List.filterMap_cons]
    cases h : exportOfLine hd with
    | none => simp only [h]; exact ih acc
    | some name =>
      simp only [h, List.map_cons, strConcat]
      rw [ih]
      simp [defLineOf, String.append_assoc]

theorem defFileContent_charact (out : String) :
    defFileContent out =
      "LIBRARY libuplink\nEXPORTS\n" ++
        strConcat (((rustLines out).filterMap exportOfLine).map defLineOf) := by
  unfold defFileContent
  exact defFold (rustLines out) "LIBRARY libuplink\nEXPORTS\n"

/-- C8: when the lib.exe fallback runs on Windows (no import library after
the gendef/dlltool attempt, `dumpbin` succeeded with output `out`), the
`.def` file written is exactly the header `LIBRARY libuplink\nEXPORTS\n`
followed by one indented line per export, in line order; and a line of the
dumpbin output contributes an export (its fourth whitespace-separated token)
if and only if it splits into at least four tokens, the first token parses
as a `u32`, and the fourth token starts with `uplink_` or `edge_`. -/
theorem C8_def_file (w : World) (out : String) (tr : List Event)
    (h1 : w.docsRs = none) (h2 : isWindows w = true)
    (h3 : w.libExistsAfterDlltool = false)
    (h4 : w.dumpbin = CmdResult.ran true out)
    (h : mainRun w = Except.ok tr) :
    Event.writeDef (defFileContent out) ∈ tr ∧
      defFileContent out =
        "LIBRARY libuplink\nEXPORTS\n" ++
          strConcat (((rustLines out).filterMap exportOfLine).map defLineOf) ∧
      (∀ line, exportOfLine line = specExportOfLine line) := by
  obtain ⟨-, rfl⟩ := (mainRun_ok_iff w tr).mp h
  refine ⟨?_, defFileContent_charact out, fun line => exportOfLine_eq_spec line⟩
  unfold mainTrace buildSeg buildPhaseTrace dumpbinLibPhase
  rw [h1, h2, h3, h4]
  simp

/-- Witness for C8 on a concrete Windows world with sample dumpbin output. -/
theorem C8_def_file_witness :
    Event.writeDef (defFileContent sampleDumpbin) ∈ mainTrace gendefFailWorld ∧
      defFileContent sampleDumpbin =
        "LIBRARY libuplink\nEXPORTS\n" ++
          strConcat (((rustLines sampleDumpbin).filterMap exportOfLine).map
            defLineOf) ∧
      exportOfLine "          1    0 00001000 uplink_access_grant" =
        specExportOfLine "          1    0 00001000 uplink_access_grant" := by
  have h := C8_def_file gendefFailWorld sampleDumpbin
    (mainTrace gendefFailWorld) rfl (by decide) rfl rfl
    (mainRun_of_ok gendefFailWorld (by decide))
  exact ⟨h.1, h.2.1, h.2.2 _⟩

/-! ### Support for C10: `copy_dir_recursive` -/

theorem except_bind_ok {α β : Type} (x : Except String α)
    (f : α → Except String β) (b : β) :
    x.bind f = Except.ok b ↔ ∃ a, x = Except.ok a ∧ f a = Except.ok b := by
  cases x with
  | error m => simp [Except.bind]
  | ok a => simp [Except.bind]

theorem copyDirRecursive_file_eq (o : FsOracle) (d : String)
    (src dst : List String) :
    copyDirRecursive o (FsTree.file d) src dst =
      if o.mkdirOk dst = true then
        Except.error "Failed to read source directory"
      else Except.error "Failed to create destination directory" := rfl

theorem copyDirRecursive_dir_eq (o : FsOracle)
    (es : List (String × FsTree)) (src dst : List String) :
    copyDirRecursive o (FsTree.dir es) src dst =
      if o.mkdirOk dst = true then
        if o.readDirOk src = true then
          (copyEntries o es src dst).map
            (fun ops => FsOp.createDirAll dst :: ops)
        else Except.error "Failed to read source directory"
      else Except.error "Failed to create destination directory" := rfl

theorem copyEntries_nil_eq (o : FsOracle) (src dst : List String) :
    copyEntries o [] src dst = Except.ok [] := rfl

theorem copyEntries_cons_dir_eq (o : FsOracle) (n : String)
    (cs rest : List (String × FsTree)) (src dst : List String) :
    copyEntries o ((n, FsTree.dir cs) :: rest) src dst =
      (copyDirRecursive o (FsTree.dir cs) (src ++ [n]) (dst ++ [n])).bind
        (fun ops1 => (copyEntries o rest src dst).bind
          (fun ops2 => Except.ok (ops1 ++ ops2))) := rfl

theorem copyEntries_cons_file_eq (o : FsOracle) (n d : String)
    (rest : List (String × FsTree)) (src dst : List String) :
    copyEntries o ((n, FsTree.file d) :: rest) src dst =
      (if o.copyOk (src ++ [n]) = true then
          Except.ok [FsOp.copyFile (src ++ [n]) (dst ++ [n])]
        else (Except.error "Failed to copy file" :
          Except String (List FsOp))).bind
        (fun ops1 => (copyEntries o rest src dst).bind
          (fun ops2 => Except.ok (ops1 ++ ops2))) := rfl

theorem copyDirRecursive_ok_decomp (o : FsOracle) (t : FsTree)
    (src dst : List String) (ops : List FsOp)
    (h : copyDirRecursive o t src dst = Except.ok ops) :
    o.mkdirOk dst = true ∧ o.readDirOk src = true ∧
      ∃ es ops', t = FsTree.dir es ∧
        copyEntries o es src dst = Except.ok ops' ∧
        ops = FsOp.createDirAll dst :: ops' := by
  cases t with
  | file d =>
    rw [copyDirRecursive_file_eq] at h
    by_cases hm : o.mkdirOk dst = true
    · rw [if_pos hm] at h; cases h
    · rw [if_neg hm] at h; cases h
  | dir es =>
    rw [copyDirRecursive_dir_eq] at h
    by_cases hm : o.mkdirOk dst = true
    · rw [if_pos hm] at h
      by_cases hr : o.readDirOk src = true
      · rw [if_pos hr] at h
        cases he : copyEntries o es src dst with
        | error m => rw [he] at h; simp [Except.map] at h
        | ok ops' =>
          rw [he] at h
          simp only [Except.map] at h
          cases h
          exact ⟨hm, hr, es, ops', rfl, he, rfl⟩
      · rw [if_neg hr] at h; cases h
    · rw [if_neg hm] at h; cases h

theorem copyEntries_ok_cons (o : FsOracle) (n : String) (child : FsTree)
    (rest : List (String × FsTree)) (src dst : List String) (ops : List FsOp)
    (h : copyEntries o ((n, child) :: rest) src dst = Except.ok ops) :
    ∃ ops1 ops2, ops = ops1 ++ ops2 ∧
      copyEntries o rest src dst = Except.ok ops2 ∧
      ((∃ cs, child = FsTree.dir cs ∧
          copyDirRecursive o child (src ++ [n]) (dst ++ [n]) =
            Except.ok ops1) ∨
        (∃ d, child = FsTree.file d ∧ o.copyOk (src ++ [n]) = true ∧
          ops1 = [FsOp.copyFile (src ++ [n]) (dst ++ [n])])) := by
  cases child with
  | dir cs =>
    rw [copyEntries_cons_dir_eq, except_bind_ok] at h
    obtain ⟨ops1, h1, h2⟩ := h
    rw [except_bind_ok] at h2
    obtain ⟨ops2, h21, h22⟩ := h2
    cases h22
    exact ⟨ops1, ops2, rfl, h21, Or.inl ⟨cs, rfl, h1⟩⟩
  | file d =>
    rw [copyEntries_cons_file_eq, except_bind_ok] at h
    obtain ⟨ops1, h1, h2⟩ := h
    rw [except_bind_ok] at h2
    obtain ⟨ops2, h21, h22⟩ := h2
    cases h22
    by_cases hk : o.copyOk (src ++ [n]) = true
    · rw [if_pos hk] at h1
      cases h1
      exact ⟨_, ops2, rfl, h21, Or.inr ⟨d, rfl, hk, rfl⟩⟩
    · rw [if_neg hk] at h1
      cases h1

theorem copyEntries_file_mem (o : FsOracle) (p' : List String)
    (IH : ∀ (t : FsTree) (src dst : List String) (ops : List FsOp),
      copyDirRecursive o t src dst = Except.ok ops → t.fileAt p' = true →
      FsOp.copyFile (src ++ p') (dst ++ p') ∈ ops ∧
        o.copyOk (src ++ p') = true) :
    ∀ (es : List (String × FsTree)) (n : String) (child : FsTree)
      (src dst : List String) (ops : List FsOp),
      copyEntries o es src dst = Except.ok ops → (n, child) ∈ es →
      child.fileAt p' = true →
      FsOp.copyFile (src ++ n :: p') (dst ++ n :: p') ∈ ops ∧
        o.copyOk (src ++ n :: p') = true := by
  intro es
  induction es with
  | nil => intro n child src dst ops h hmem hf; cases hmem
  | cons hd rest ih =>
    intro n child src dst ops h hmem hf
    obtain ⟨n0, child0⟩ := hd
    obtain ⟨ops1, ops2, rfl, hrest, hfirst⟩ :=
      copyEntries_ok_cons o n0 child0 rest src dst ops h
    rcases List.mem_cons.mp hmem with heq | hmem2
    · injection heq with e1 e2
      subst e1
      subst e2
      rcases hfirst with ⟨cs, rfl, hc⟩ | ⟨d, rfl, hk, rfl⟩
      · have hmm := IH (FsTree.dir cs) (src ++ [n]) (dst ++ [n]) ops1 hc hf
        rw [List.append_cons src n p', List.append_cons dst n p']
        exact ⟨List.mem_append.mpr (Or.inl hmm.1), hmm.2⟩
      · cases p' with
        | nil =>
          refine ⟨List.mem_append.mpr (Or.inl ?_), by simpa using hk⟩
          simp
        | cons x xs => simp [FsTree.fileAt] at hf
    · have hmm := ih n child src dst ops2 hrest hmem2 hf
      exact ⟨List.mem_append.mpr (Or.inr hmm.1), hmm.2⟩

theorem copy_file_mem (o : FsOracle) (p : List String) :
    ∀ (t : FsTree) (src dst : List String) (ops : List FsOp),
      copyDirRecursive o t src dst = Except.ok ops → t.fileAt p = true →
      FsOp.copyFile (src ++ p) (dst ++ p) ∈ ops ∧
        o.copyOk (src ++ p) = true := by
  induction p with
  | nil =>
    intro t src dst ops hok hf
    obtain ⟨-, -, es, ops', rfl, -, -⟩ :=
      copyDirRecursive_ok_decomp o t src dst ops hok
    simp [FsTree.fileAt] at hf
  | cons n p' ih =>
    intro t src dst ops hok hf
    obtain ⟨hm, hr, es, ops', rfl, hce, rfl⟩ :=
      copyDirRecursive_ok_decomp o t src dst ops hok
    simp only [FsTree.fileAt, List.any_eq_true] at hf
    obtain ⟨⟨n0, child⟩, hmem, hcond⟩ := hf
    simp only [Bool.and_eq_true, decide_eq_true_eq] at hcond
    obtain ⟨rfl, hfat⟩ := hcond
    have hmm := copyEntries_file_mem o p' ih es n0 child src dst ops' hce
      hmem hfat
    exact ⟨List.mem_cons.mpr (Or.inr hmm.1), hmm.2⟩

theorem targets_aux (o : FsOracle) (k : Nat) :
    (∀ (t : FsTree) (src dst : List String) (ops : List FsOp), sizeOf t ≤ k →
      copyDirRecursive o t src dst = Except.ok ops →
      ∀ op ∈ ops, ∃ q, op.target = dst ++ q) ∧
    (∀ (es : List (String × FsTree)) (src dst : List String)
      (ops : List FsOp), sizeOf es ≤ k →
      copyEntries o es src dst = Except.ok ops →
      ∀ op ∈ ops, ∃ q, op.target = dst ++ q) := by
  induction k with
  | zero =>
    constructor
    · intro t src dst ops hsz
      exfalso
      cases t <;> simp_arith at hsz
    · intro es src dst ops hsz
      exfalso
      cases es <;> simp_arith at hsz
  | succ k ihk =>
    constructor
    · intro t src dst ops hsz hok op hop
      obtain ⟨-, -, es, ops', rfl, hce, rfl⟩ :=
        copyDirRecursive_ok_decomp o t src dst ops hok
      rcases List.mem_cons.mp hop with rfl | hop2
      · exact ⟨[], by simp [FsOp.target]⟩
      · have hes : sizeOf es ≤ k := by
          simp_arith [FsTree.dir.sizeOf_spec] at hsz
          omega
        exact ihk.2 es src dst ops' hes hce op hop2
    · intro es src dst ops hsz hce op hop
      cases es with
      | nil =>
        rw [copyEntries_nil_eq] at hce
        cases hce
        cases hop
      | cons hd rest =>
        obtain ⟨n, child⟩ := hd
        obtain ⟨ops1, ops2, rfl, hrest, hfirst⟩ :=
          copyEntries_ok_cons o n child rest src dst ops hce
        have hszs : sizeOf child ≤ k ∧ sizeOf rest ≤ k := by
          simp_arith [List.cons.sizeOf_spec, Prod.mk.sizeOf_spec] at hsz
          omega
        rcases List.mem_append.mp hop with hop1 | hop2
        · rcases hfirst with ⟨cs, rfl, hc⟩ | ⟨d, rfl, hk, rfl⟩
          · obtain ⟨q, hq⟩ := ihk.1 (FsTree.dir cs) (src ++ [n]) (dst ++ [n])
              ops1 hszs.1 hc op hop1
            exact ⟨n :: q, by rw [hq]; simp⟩
          · rcases List.mem_singleton.mp hop1 with rfl
            exact ⟨[n], by simp [FsOp.target]⟩
        · exact ihk.2 rest src dst ops2 hszs.2 hrest op hop2

theorem copy_targets (o : FsOracle) (t : FsTree) (src dst : List String)
    (ops : List FsOp) (h : copyDirRecursive o t src dst = Except.ok ops) :
    ∀ op ∈ ops, ∃ q, op.target = dst ++ q :=
  (targets_aux o (sizeOf t)).1 t src dst ops le_rfl h

theorem copy_targets_all (o : FsOracle) (t : FsTree) (src dst : List String)
    (ops : List FsOp) (h : copyDirRecursive o t src dst = Except.ok ops) :
    ops.all (fun op => dst.isPrefixOf op.target) = true := by
  rw [List.all_eq_true]
  intro op hop
  obtain ⟨q, hq⟩ := copy_targets o t src dst ops h op hop
  rw [hq, List.isPrefixOf_iff_prefix]
  exact ⟨q, rfl⟩

theorem copy_panics_file (o : FsOracle) (d : String) (src dst : List String) :
    panics (copyDirRecursive o (FsTree.file d) src dst) = true := by
  rw [copyDirRecursive_file_eq]
  by_cases hm : o.mkdirOk dst = true
  · rw [if_pos hm]; rfl
  · rw [if_neg hm]; rfl

theorem copy_panics_noread (o : FsOracle) (t : FsTree) (src dst : List String)
    (hr : o.readDirOk src = false) :
    panics (copyDirRecursive o t src dst) = true := by
  cases t with
  | file d => exact copy_panics_file o d src dst
  | dir es =>
    rw [copyDirRecursive_dir_eq]
    by_cases hm : o.mkdirOk dst = true
    · rw [if_pos hm, if_neg (by simp [hr])]; rfl
    · rw [if_neg hm]; rfl

theorem copy_panics_copyfail (o : FsOracle) (t : FsTree)
    (src dst p : List String) (hf : t.fileAt p = true)
    (hc : o.copyOk (src ++ p) = false) :
    panics (copyDirRecursive o t src dst) = true := by
  cases h : copyDirRecursive o t src dst with
  | error m => rfl
  | ok ops =>
    have := (copy_file_mem o p t src dst ops h hf).2
    rw [this] at hc
    cases hc

/-- C10: `copy_dir_recursive` creates the destination directory (the
`createDirAll` operation, whose semantics creates all needed intermediate
directories) and copies every file found at any relative path under the
source to the same relative path under the destination; every write it
performs targets a path under `dst`; and it panics when the source cannot be
read (including when it is not a directory) or when any file copy fails. -/
theorem C10_copy_dir_recursive (o : FsOracle) (t : FsTree) (d : String)
    (src dst p : List String) (ops : List FsOp) :
    (copyDirRecursive o t src dst = Except.ok ops →
      FsOp.createDirAll dst ∈ ops ∧
      (t.fileAt p = true → FsOp.copyFile (src ++ p) (dst ++ p) ∈ ops) ∧
      ops.all (fun op => dst.isPrefixOf op.target) = true) ∧
    (t = FsTree.file d → panics (copyDirRecursive o t src dst) = true) ∧
    (o.readDirOk src = false → panics (copyDirRecursive o t src dst) = true) ∧
    (t.fileAt p = true → o.copyOk (src ++ p) = false →
      panics (copyDirRecursive o t src dst) = true) := by
  refine ⟨fun h => ⟨?_, fun hf => (copy_file_mem o p t src dst ops h hf).1,
      copy_targets_all o t src dst ops h⟩,
    fun ht => ht ▸ copy_panics_file o d src dst,
    copy_panics_noread o t src dst,
    copy_panics_copyfail o t src dst p⟩
  obtain ⟨-, -, es, ops', rfl, -, rfl⟩ :=
    copyDirRecursive_ok_decomp o t src dst ops h
  exact List.mem_cons_self _ _

/-- Witness for C10 on a concrete tree and oracles. -/
theorem C10_copy_dir_recursive_witness :
    FsOp.createDirAll ["d"] ∈ sampleCopyOps ∧
      FsOp.copyFile (["s"] ++ ["sub", "a.c"]) (["d"] ++ ["sub", "a.c"]) ∈
        sampleCopyOps ∧
      sampleCopyOps.all (fun op => ["d"].isPrefixOf op.target) = true ∧
      panics (copyDirRecursive noReadOracle sampleTree ["s"] ["d"]) = true ∧
      panics (copyDirRecursive noCopyOracle sampleTree ["s"] ["d"]) = true := by
  have h1 := (C10_copy_dir_recursive allOkOracle sampleTree "" ["s"] ["d"]
    ["sub", "a.c"] sampleCopyOps).1 rfl
  have h2 := C10_copy_dir_recursive noReadOracle sampleTree "" ["s"] ["d"]
    [] []
  have h3 := C10_copy_dir_recursive noCopyOracle sampleTree "" ["s"] ["d"]
    ["sub", "a.c"] []
  exact ⟨h1.1, h1.2.1 (by decide), h1.2.2, h2.2.2.1 rfl,
    h3.2.2.2 (by decide) (by decide)⟩

end UplinkBuild
